import Mathlib

/-!
Verification development for the haru-project/rosdistro automation scripts.
The Python sources (scripts/github_api.py, scripts/package_analyzer.py,
scripts/rosdep_updater.py, scripts/main.py) are shallowly embedded below:
pure data manipulation becomes Lean functions, the in-memory YAML document
becomes an ordered association list (Python dicts preserve insertion order),
file contents become Option String values, and Python exceptions become
Except values.
-/

namespace Rosdistro

/-! ### Python string primitives

Models of the Python string operations the scripts use, written over the
underlying character lists so that every theorem below can be checked by
kernel evaluation. -/

/-- Python s.replace(a, b) for one-character patterns. -/
def replaceChar (a b : Char) (s : String) : String :=
  String.mk (s.data.map (fun c => if c = a then b else c))

/-- Helper for pySplitWs: current word characters are accumulated in
reverse. -/
def splitWsAux : List Char → List Char → List String
  | [], acc => if acc.isEmpty then [] else [String.mk acc.reverse]
  | c :: cs, acc =>
    if c.isWhitespace then
      (if acc.isEmpty then splitWsAux cs []
       else String.mk acc.reverse :: splitWsAux cs [])
    else splitWsAux cs (c :: acc)

/-- Python s.split() with no argument: split on whitespace runs, dropping
empty pieces. -/
def pySplitWs (s : String) : List String := splitWsAux s.data []

/-- Python s.strip(): drop whitespace from both ends. -/
def pyStrip (s : String) : String :=
  String.mk (((s.data.dropWhile Char.isWhitespace).reverse.dropWhile
    Char.isWhitespace).reverse)

/-- Python s.startswith(prefixStr). -/
def pyStartsWith (s prefixStr : String) : Bool :=
  prefixStr.data.isPrefixOf s.data

/-- Python s.lower() (ASCII case folding suffices for the messages the
scripts compare). -/
def pyLower (s : String) : String := String.mk (s.data.map Char.toLower)

/-- Substring search on character lists. -/
def containsSub : List Char → List Char → Bool
  | [], needle => needle.isEmpty
  | h :: t, needle => needle.isPrefixOf (h :: t) || containsSub t needle

/-- Python "needle in haystack" on strings. -/
def pyContains (haystack needle : String) : Bool :=
  containsSub haystack.data needle.data

/-- Python s.isdigit() for the ASCII header values the scripts parse. -/
def pyIsDigits (s : String) : Bool :=
  !(s.data.isEmpty) && s.data.all Char.isDigit

/-- Python int(s) on an all-digit string. -/
def digitsToNat (s : String) : Nat :=
  s.data.foldl (fun n c => n * 10 + (c.toNat - 48)) 0

/-- The trailing-byte check of the append-only writer: a UTF-8 encoded text
file ends in the byte 0x0A exactly when the string ends in a newline
character. -/
def endsWithNewline (s : String) : Bool := s.data.getLast? == some '\n'

/-! ### scripts/package_analyzer.py : ROSPackage -/

/-- ROSPackage from package_analyzer.py: name, repository, file_path. -/
structure ROSPackage where
  name : String
  repository : String
  file_path : String
deriving DecidableEq, Repr

/-- ROSPackage._convert_to_debian_name: replace every underscore with a hyphen
(Python str.replace on a one-character pattern). Stored as the debian_name
attribute at construction time; modeled as a function of the name. -/
def ROSPackage.debian_name (p : ROSPackage) : String :=
  replaceChar '_' '-' p.name

/-- ROSPackage.get_rosdep_entries: the fixed ubuntu codename mapping
(jammy gets the humble identifier, noble gets jazzy and kilted). -/
def ROSPackage.get_rosdep_entries (p : ROSPackage) : List (String × List String) :=
  [("jammy", ["ros-humble-" ++ p.debian_name]),
   ("noble", ["ros-jazzy-" ++ p.debian_name, "ros-kilted-" ++ p.debian_name])]

/-! ### The YAML document model

Values loaded from / dumped to rosdep.yaml. Python dicts are ordered, so a
mapping is an association list in insertion order. -/

/-- A YAML value as manipulated by rosdep_updater.py (scalars, sequences,
mappings). -/
inductive YVal where
  | str : String → YVal
  | int : Int → YVal
  | list : List YVal → YVal
  | dict : List (String × YVal) → YVal

/-- The in-memory rosdep document: ordered mapping package name → entry. -/
abbrev Doc := List (String × YVal)

/-- Python dict lookup d[k] / d.get(k) on an ordered association list
(first match; real dicts have unique keys). -/
def alookup {α : Type} : List (String × α) → String → Option α
  | [], _ => none
  | (k, v) :: rest, n => if k = n then some v else alookup rest n

/-- set(self.rosdep_data.keys()) from get_existing_packages, as a list. -/
def keys (d : Doc) : List String := d.map Prod.fst

/-- Python "package_name in self.rosdep_data" (dict key membership). -/
def hasKey : Doc → String → Bool
  | [], _ => false
  | (k, _) :: rest, n => k == n || hasKey rest n

theorem hasKey_iff_mem (d : Doc) (n : String) : hasKey d n = true ↔ n ∈ keys d := by
  induction d with
  | nil => simp [hasKey, keys]
  | cons kv rest ih =>
    obtain ⟨k, v⟩ := kv
    simp only [hasKey, keys, List.map_cons, List.mem_cons, Bool.or_eq_true,
      beq_iff_eq, ih]
    exact or_congr eq_comm Iff.rfl

/-! ### scripts/rosdep_updater.py : adding packages -/

/-- ROSDepUpdater.add_ros_package (rosdep_updater.py:145-184).
If the package name is already a key, the method returns False and leaves
the data untouched; force_update only changes which message is logged,
never the outcome. Otherwise the entry {'ubuntu': get_rosdep_entries()} is
inserted (dict insertion appends the new key at the end). -/
def add_ros_package (rosdep_data : Doc) (ros_package : ROSPackage)
    (force_update : Bool) : Bool × Doc :=
  if hasKey rosdep_data ros_package.name then
    (false, rosdep_data)
  else
    (true, rosdep_data ++ [(ros_package.name,
      YVal.dict [("ubuntu", YVal.dict (ros_package.get_rosdep_entries.map
        (fun kv => (kv.1, YVal.list (kv.2.map YVal.str)))))])])

/-- ROSDepUpdater.add_multiple_packages: loop over the list, counting the
calls that returned True. (The per-item try/except in the source never fires
in this model because add_ros_package cannot raise.) -/
def add_multiple_packages (force_update : Bool) : Doc → List ROSPackage → Doc × Nat
  | d, [] => (d, 0)
  | d, p :: rest =>
    let r := add_ros_package d p force_update
    let rr := add_multiple_packages force_update r.2 rest
    (rr.1, (if r.1 then 1 else 0) + rr.2)

/-- ROSDepUpdater.filter_new_packages: keep packages whose name is not an
existing key. -/
def filter_new_packages (d : Doc) (packages : List ROSPackage) : List ROSPackage :=
  packages.filter (fun p => !(hasKey d p.name))

/-! ### scripts/rosdep_updater.py : manual exclusions -/

/-- The MANUAL_ENTRIES environment value parsing inside get_manual_packages:
env_value.replace(",", " ").split() keeping the nonempty pieces. -/
def parse_env_manual (env_value : String) : List String :=
  pySplitWs (replaceChar ',' ' ' env_value)

/-- The manual_entries.txt parsing inside get_manual_packages: strip each
line, skip empty lines and lines starting with the hash character. -/
def parse_manual_file (lines : List String) : List String :=
  lines.filterMap (fun line =>
    let stripped := pyStrip line
    if stripped = "" || pyStartsWith stripped "#" then none else some stripped)

/-- ROSDepUpdater.get_manual_packages (rosdep_updater.py:56-82): union of the
environment override and the sidecar file entries (a Python set; modeled as
a list queried only for membership). fileLines = none models a missing or
unreadable sidecar file (the source catches read errors and keeps going). -/
def get_manual_packages (env_value : String) (fileLines : Option (List String)) :
    List String :=
  parse_env_manual env_value ++
    (match fileLines with
     | some ls => parse_manual_file ls
     | none => [])

/-! ### scripts/rosdep_updater.py : update_rosdep_with_packages (document part) -/

/-- The list of packages that survives both filters in
update_rosdep_with_packages (rosdep_updater.py:392-404): the novelty filter
is skipped when force_update is set, the manual-exclusion filter is applied
unconditionally. -/
def packages_to_add (d : Doc) (packages : List ROSPackage) (manual : List String)
    (force_update : Bool) : List ROSPackage :=
  (if force_update then packages else filter_new_packages d packages).filter
    (fun p => !(manual.contains p.name))

/-- In-memory document effect of update_rosdep_with_packages: add the
surviving packages and report how many were added. (The early returns for an
empty list coincide with add_multiple_packages on an empty list; the save
step never mutates the in-memory document.) -/
def update_packages (d : Doc) (packages : List ROSPackage) (manual : List String)
    (force_update : Bool) : Doc × Nat :=
  add_multiple_packages force_update d (packages_to_add d packages manual force_update)

/-! ### scripts/rosdep_updater.py : structural validation

validate_yaml_syntax (rosdep_updater.py:84-143) first round-trips the data
through yaml.dump / yaml.safe_load; for the mapping values modeled by YVal
that round trip is the identity up to key ordering (the dump sorts keys,
re-parsing yields the same key/value pairs), and the checks below are
insensitive to ordering, so the round trip is not modeled separately. -/

/-- isinstance(v, str). -/
def YVal.isStr : YVal → Bool
  | .str _ => true
  | _ => false

/-- isinstance(v, list). -/
def YVal.isList : YVal → Bool
  | .list _ => true
  | _ => false

/-- The checks applied to package_data['ubuntu']: a list of strings, or a
mapping whose every value is a list of strings; anything else fails. -/
def valid_ubuntu_data : YVal → Bool
  | .list pkgs => pkgs.all YVal.isStr
  | .dict distros => distros.all (fun kv =>
      match kv.2 with
      | .list pkgs => pkgs.all YVal.isStr
      | _ => false)
  | _ => false

/-- Per-entry check: the value must be a mapping containing the key
"ubuntu", whose value passes valid_ubuntu_data. -/
def validate_entry : YVal → Bool
  | .dict kvs =>
    (match alookup kvs "ubuntu" with
     | some ubuntu_data => valid_ubuntu_data ubuntu_data
     | none => false)
  | _ => false

/-- ROSDepUpdater.validate_yaml_syntax on an in-memory document (the
top-level value is a mapping by construction of Doc). -/
def validate_yaml_structure (d : Doc) : Bool :=
  d.all (fun kv => validate_entry kv.2)

/-! ### scripts/rosdep_updater.py : validate_existing_entries

validate_existing_entries (rosdep_updater.py:337-372) returns a list of
warnings and is NOT called from any save path. The embedding mirrors the
source on the mapping-shaped entries actually stored in documents; branches
where the Python would raise (membership test or startswith on values of the
wrong runtime type) are outside the modeled domain and return no issue, and
every theorem below applies this function only to documents that pass
validate_yaml_structure, where those branches are unreachable. -/

/-- Python truthiness of "if not packages". -/
def YVal.isFalsy : YVal → Bool
  | .list [] => true
  | .str "" => true
  | .int 0 => true
  | _ => false

/-- One element of a distribution list: flag identifiers that do not start
with "ros-". -/
def pkg_issue (package_name : String) (pkg : YVal) : List String :=
  match pkg with
  | .str s =>
    if pyStartsWith s "ros-" then []
    else ["Package " ++ package_name ++ " has non-ROS package: " ++ s]
  | _ => []

/-- One distro entry of the ubuntu mapping: empty-value issue plus per-item
prefix issues. -/
def distro_issues (package_name : String) (kv : String × YVal) : List String :=
  (if kv.2.isFalsy then
      ["Package " ++ package_name ++ " has empty " ++ kv.1 ++ " distribution"]
    else []) ++
  (match kv.2 with
   | .list pkgs => pkgs.flatMap (pkg_issue package_name)
   | _ => [])

/-- Issues reported for one package entry. -/
def entry_issues (package_name : String) (package_data : YVal) : List String :=
  match package_data with
  | .dict kvs =>
    (match alookup kvs "ubuntu" with
     | none => ["Package " ++ package_name ++ " missing ubuntu key"]
     | some ubuntu_data =>
       match ubuntu_data with
       | .list pkgs =>
         (if pkgs.isEmpty then
             ["Package " ++ package_name ++ " has empty ubuntu list"]
           else []) ++ pkgs.flatMap (pkg_issue package_name)
       | .dict distros => distros.flatMap (distro_issues package_name)
       | _ => ["Package " ++ package_name ++ " ubuntu data must be dictionary or list"])
  | _ => []

/-- ROSDepUpdater.validate_existing_entries. -/
def validate_existing_entries (d : Doc) : List String :=
  d.flatMap (fun kv => entry_issues kv.1 kv.2)

/-! ### scripts/rosdep_updater.py : serialization and save

Model of yaml.dump(..., default_flow_style=False, sort_keys=False, indent=2)
on the documents this program saves (each save dumps only data that already
passed validate_yaml_structure, i.e. mappings of mappings whose leaves are
lists of plain identifier strings, at most three levels deep; PyYAML quoting
of special scalars is not modeled and no theorem relies on it). Block
sequences are emitted with the dash at the key's indentation, as PyYAML
does. -/

/-- Scalar rendering of plain YAML scalars. -/
def scalarText : YVal → String
  | .str s => s
  | .int n => toString n
  | _ => ""

/-- Block sequence items at the given indentation. -/
def dumpSeqItems (ind : String) : List YVal → String
  | [] => ""
  | v :: rest => ind ++ "- " ++ scalarText v ++ "\n" ++ dumpSeqItems ind rest

mutual

/-- One mapping entry "key: value" in block style. -/
def dumpPair (ind k : String) : YVal → String
  | .str s => ind ++ k ++ ": " ++ s ++ "\n"
  | .int n => ind ++ k ++ ": " ++ toString n ++ "\n"
  | .list xs => ind ++ k ++ ":\n" ++ dumpSeqItems ind xs
  | .dict kvs => ind ++ k ++ ":\n" ++ dumpMap (ind ++ "  ") kvs

/-- A block mapping, two extra spaces per nesting level. -/
def dumpMap (ind : String) : List (String × YVal) → String
  | [] => ""
  | (k, v) :: rest => dumpPair ind k v ++ dumpMap ind rest

end

/-- yaml.dump of a whole document (top level at indentation zero). -/
def yamlDump (d : Doc) : String := dumpMap "" d

/-- Python's "<" on strings: lexicographic comparison of the code point
sequences (a strict prefix is smaller). -/
def charListLt : List Char → List Char → Bool
  | [], [] => false
  | [], _ :: _ => true
  | _ :: _, [] => false
  | a :: as, b :: bs =>
    if a.toNat < b.toNat then true
    else if b.toNat < a.toNat then false
    else charListLt as bs

/-- Python string comparison a < b. -/
def pyStrLt (a b : String) : Bool := charListLt a.data b.data

/-- Stable insertion of one entry into a key-sorted association list. -/
def insertKv (x : String × YVal) : List (String × YVal) → List (String × YVal)
  | [] => [x]
  | y :: ys => if pyStrLt x.1 y.1 || x.1 == y.1 then x :: y :: ys else y :: insertKv x ys

/-- dict(sorted(d.items())): sort the entries by key (keys of a Python dict
are unique, so key order determines the result). -/
def sortKvs (l : List (String × YVal)) : List (String × YVal) :=
  l.foldr insertKv []

/-- ROSDepUpdater.save_rosdep_file (rosdep_updater.py:209-288), with the
file system reduced to the rosdep file's content (none = file absent; the
backup copy is not modeled). Returns (success, content after the call).

In the append-only branch the source writes, in order: a lone newline when
the pre-existing file is nonempty and its last byte is not a newline, then
a second newline whenever the rosdep file exists with positive size at that
moment, then the dumped new entries. Since opening in append mode never
truncates, that size check succeeds exactly when the pre-existing file was
nonempty (a freshly created or empty file has nothing written to it before
the check, because needs_newline is false in that case). -/
def save_rosdep_file (rosdep_data : Doc) (fileContent : Option String)
    (append_only : Bool) (original_packages : Option (List String)) :
    Bool × Option String :=
  if append_only then
    match original_packages with
    | none => (false, fileContent)
    | some orig =>
      let new_entries := rosdep_data.filter (fun kv => !(orig.contains kv.1))
      if new_entries.isEmpty then (true, fileContent)
      else if !(validate_yaml_structure new_entries) then (false, fileContent)
      else
        let new_yaml := yamlDump (sortKvs new_entries)
        let old := fileContent.getD ""
        let needs_newline := !(old.data.isEmpty) && !(endsWithNewline old)
        (true, some (old ++ (if needs_newline then "\n" else "")
          ++ (if !(old.data.isEmpty) then "\n" else "") ++ new_yaml))
  else
    if !(validate_yaml_structure rosdep_data) then (false, fileContent)
    else (true, some (yamlDump (sortKvs rosdep_data)))

/-! ### scripts/github_api.py : rate-limit detection -/

/-- Python exceptions that cross function boundaries in these scripts.
rateLimit embeds github_api.RateLimitError (a RuntimeError subclass, so it
is NOT caught by "except requests.RequestException" clauses but IS caught
by "except Exception" clauses). -/
inductive PyErr where
  | rateLimit (message : String) (resetEpoch : Option Nat)
  | requestException
  | binasciiError
  | unicodeDecodeError
deriving DecidableEq, Repr

/-- The parts of a requests.Response inspected by the rate-limit helpers.
jsonMessage = some m means response.json() produced a mapping and
.get('message', default) yielded the string m (some "" when the field is
missing); none means the JSON access path raised, in which case the source
falls back to response.text. -/
structure HttpResponse where
  status : Nat
  remaining : Option String
  reset : Option String
  jsonMessage : Option String
  text : String
deriving DecidableEq, Repr

/-- GitHubAPI._is_rate_limited (github_api.py:37-47): status 403/429, then
either a zero remaining-quota header or a recognizable message substring. -/
def is_rate_limited (r : HttpResponse) : Bool :=
  if !(r.status = 403 || r.status = 429) then false
  else if r.remaining = some "0" then true
  else
    let message := pyLower (match r.jsonMessage with
      | some m => m
      | none => r.text)
    pyContains message "rate limit exceeded" ||
      pyContains message "too many requests"

/-- GitHubAPI._raise_rate_limit (github_api.py:49-58): build the typed
RateLimitError carrying the reset epoch when the header is all digits. -/
def raise_rate_limit (context : String) (r : HttpResponse) : PyErr :=
  let reset_epoch := match r.reset with
    | some s => if pyIsDigits s then some (digitsToNat s) else none
    | none => none
  let message : Option String := match r.jsonMessage with
    | some m => if m = "" then none else some m
    | none => if pyStrip r.text = "" then none else some (pyStrip r.text)
  let detail := message.getD "API rate limit exceeded"
  PyErr.rateLimit (context ++ ": " ++ detail) reset_epoch

/-- GitHubAPI._request (github_api.py:60-65) applied to the response the
transport produced for the url: raises the typed rate-limit failure exactly
when _is_rate_limited flags the response. -/
def github_request (url : String) (r : HttpResponse) : Except PyErr HttpResponse :=
  if is_rate_limited r then
    Except.error (raise_rate_limit ("Rate limit hit for " ++ url) r)
  else
    Except.ok r

/-! ### scripts/package_analyzer.py : the organization scan loop -/

/-- The all-repositories branch of
PackageAnalyzer.analyze_organization_repositories (package_analyzer.py:
205-218), abstracted over the outcome of analyze_repository for each
repository (Except.error e = the analysis raised e; a RateLimitError from
any API call inside analyze_repository reaches this loop uncaught, because
every intermediate handler catches only requests.RequestException). The
loop's own handler is a bare "except Exception: log and continue", so every
error — including a rate-limit failure — is swallowed and the scan always
returns normally with the packages gathered so far. -/
def analyze_all_repositories (repoResults : List (Except PyErr (List ROSPackage))) :
    Except PyErr (List ROSPackage) :=
  Except.ok (repoResults.foldl
    (fun acc r =>
      match r with
      | Except.ok pkgs => acc ++ pkgs
      | Except.error _ => acc)
    [])

/-! ### scripts/package_analyzer.py : deduplication -/

/-- Replace the value stored under a key, keeping its position (Python dict
assignment to an existing key). -/
def updateKeyed : List (String × ROSPackage) → String → ROSPackage →
    List (String × ROSPackage)
  | [], _, _ => []
  | (k, v) :: rest, n, p =>
    if k = n then (k, p) :: rest else (k, v) :: updateKeyed rest n p

/-- The loop body of PackageAnalyzer.get_unique_packages
(package_analyzer.py:220-242) over the insertion-ordered dict
unique_packages: first record with a name is stored; a later record with
the same name replaces it only when its repository name compares strictly
greater (Python string comparison, lexicographic by code point). -/
def unique_loop : List (String × ROSPackage) → List ROSPackage →
    List (String × ROSPackage)
  | acc, [] => acc
  | acc, p :: rest =>
    match alookup acc p.name with
    | none => unique_loop (acc ++ [(p.name, p)]) rest
    | some q =>
      if pyStrLt q.repository p.repository then unique_loop (updateKeyed acc p.name p) rest
      else unique_loop acc rest

/-- PackageAnalyzer.get_unique_packages: list(unique_packages.values()). -/
def get_unique_packages (packages : List ROSPackage) : List ROSPackage :=
  (unique_loop [] packages).map Prod.snd

/-! ### scripts/github_api.py : base64 and UTF-8 decoding in get_file_content

Models of the library calls base64.b64decode (default validate=False) and
bytes.decode(utf-8): characters outside the base64 alphabet are discarded,
the character count including padding must be a multiple of four (otherwise
binascii.Error, "Incorrect padding"), and the byte stream must be valid
strict UTF-8 (otherwise UnicodeDecodeError). Inputs with alphabet
characters after the first padding character are outside the modeled
domain; no theorem uses one. -/

/-- The base64 alphabet value of a character. -/
def b64Index (c : Char) : Option Nat :=
  if 'A' ≤ c ∧ c ≤ 'Z' then some (c.toNat - 65)
  else if 'a' ≤ c ∧ c ≤ 'z' then some (c.toNat - 71)
  else if '0' ≤ c ∧ c ≤ '9' then some (c.toNat + 4)
  else if c = '+' then some 62
  else if c = '/' then some 63
  else none

/-- Reassemble 6-bit groups into bytes; a single leftover group is a
padding error. -/
def b64Bytes : List Nat → Option (List Nat)
  | [] => some []
  | [_] => none
  | [a, b] => some [a * 4 + b / 16]
  | [a, b, c] => some [a * 4 + b / 16, (b % 16) * 16 + c / 4]
  | a :: b :: c :: d :: rest =>
    (b64Bytes rest).map (fun t =>
      (a * 4 + b / 16) :: ((b % 16) * 16 + c / 4) :: ((c % 4) * 64 + d) :: t)

/-- base64.b64decode on a text payload, none = binascii.Error raised. -/
def b64decode (s : String) : Option (List Nat) :=
  let cs := s.data.filter (fun c => (b64Index c).isSome || c = '=')
  if cs.length % 4 ≠ 0 then none
  else b64Bytes ((cs.takeWhile (fun c => c ≠ '=')).filterMap b64Index)

/-- b2 is a UTF-8 continuation byte. -/
def utf8Cont (b : Nat) : Bool := 0x80 ≤ b && b ≤ 0xBF

/-- Strict UTF-8 decoding to code points, with fuel (the caller passes the
byte count, and each step consumes at least one byte, so fuel never runs
out). Overlong encodings, surrogates and values above 0x10FFFF are
rejected, as CPython's strict codec does. -/
def utf8Go : Nat → List Nat → Option (List Nat)
  | _, [] => some []
  | 0, _ :: _ => none
  | fuel + 1, b :: rest =>
    if b ≤ 0x7F then (utf8Go fuel rest).map (fun t => b :: t)
    else if 0xC2 ≤ b && b ≤ 0xDF then
      match rest with
      | b2 :: r2 =>
        if utf8Cont b2 then
          (utf8Go fuel r2).map (fun t => ((b - 0xC0) * 64 + (b2 - 0x80)) :: t)
        else none
      | [] => none
    else if 0xE0 ≤ b && b ≤ 0xEF then
      match rest with
      | b2 :: b3 :: r3 =>
        let lo2 := if b = 0xE0 then 0xA0 else 0x80
        let hi2 := if b = 0xED then 0x9F else 0xBF
        if (lo2 ≤ b2 && b2 ≤ hi2) && utf8Cont b3 then
          (utf8Go fuel r3).map (fun t =>
            ((b - 0xE0) * 4096 + (b2 - 0x80) * 64 + (b3 - 0x80)) :: t)
        else none
      | _ => none
    else if 0xF0 ≤ b && b ≤ 0xF4 then
      match rest with
      | b2 :: b3 :: b4 :: r4 =>
        let lo2 := if b = 0xF0 then 0x90 else 0x80
        let hi2 := if b = 0xF4 then 0x8F else 0xBF
        if (lo2 ≤ b2 && b2 ≤ hi2) && (utf8Cont b3 && utf8Cont b4) then
          (utf8Go fuel r4).map (fun t =>
            ((b - 0xF0) * 262144 + (b2 - 0x80) * 4096 +
              (b3 - 0x80) * 64 + (b4 - 0x80)) :: t)
        else none
      | _ => none
    else none

/-- bytes.decode(utf-8), none = UnicodeDecodeError raised. The code points
produced by utf8Go are always valid scalar values, so Char.ofNat is
faithful here. -/
def utf8DecodeString (bytes : List Nat) : Option String :=
  (utf8Go bytes.length bytes).map (fun cps => String.mk (cps.map Char.ofNat))

/-! ### scripts/github_api.py : get_file_content -/

/-- The observable outcome of the HTTP exchange inside get_file_content:
requestError = a requests.RequestException was raised by the request or by
raise_for_status; okJson ct content = a success response whose JSON body
has fields type = ct and content = content. -/
inductive ContentResponse where
  | requestError
  | okJson (contentType : String) (content : String)
deriving DecidableEq, Repr

/-- GitHubAPI.get_file_content (github_api.py:167-201). The try block
catches ONLY requests.RequestException; a binascii.Error from
base64.b64decode or a UnicodeDecodeError from bytes.decode escapes the
function (Except.error), everything handled returns Except.ok (file
content or None). -/
def get_file_content (resp : ContentResponse) : Except PyErr (Option String) :=
  match resp with
  | ContentResponse.requestError => Except.ok none
  | ContentResponse.okJson contentType content =>
    if contentType = "file" then
      match b64decode content with
      | none => Except.error PyErr.binasciiError
      | some bytes =>
        match utf8DecodeString bytes with
        | none => Except.error PyErr.unicodeDecodeError
        | some s => Except.ok (some s)
    else Except.ok none

/-! ### scripts/main.py : the orchestration wiring -/

/-- Keyword parameters accepted by
PackageAnalyzer.analyze_organization_repositories, from its definition at
package_analyzer.py:184 (self is bound positionally; there is no catch-all
keyword parameter). -/
def analyzeOrgReposParams : List String := ["org", "specific_repo"]

/-- Keyword arguments main passes at the scanning call (main.py:69 when a
specific repository is configured, main.py:72 otherwise). -/
def mainScanKwargs (specificRepo : Bool) : List String :=
  if specificRepo then ["specific_repo", "existing_packages"]
  else ["existing_packages"]

/-- Python call binding for keyword arguments against a signature without a
catch-all: every keyword must name an accepted parameter, otherwise the
call raises TypeError before the body runs. -/
def kwargs_bind_ok (params kwargs : List String) : Bool :=
  kwargs.all (fun k => params.contains k)

/-- Outcome of one process run of main. -/
inductive RunOutcome where
  | exit (code : Nat)
  | finished
deriving DecidableEq, Repr

/-- main (main.py:27-130) up to and including the repository-scanning call.
Without a token main exits 1 before scanning. With a token it reaches the
call to analyze_organization_repositories; if the keyword arguments failed
to bind, the TypeError is caught by the generic top-level except block
(main.py:122-125, the dedicated RateLimitError clause does not match) and
the process exits 1. The continuation after a successful bind is not
modeled (RunOutcome.finished), because the theorems show it is never
reached. -/
def mainRun (tokenPresent : Bool) (specificRepo : Bool) : RunOutcome :=
  if !tokenPresent then RunOutcome.exit 1
  else if kwargs_bind_ok analyzeOrgReposParams (mainScanKwargs specificRepo) then
    RunOutcome.finished
  else RunOutcome.exit 1

/-! ### Concrete fixtures used by witness and counterexample theorems -/

/-- A well-formed rosdep entry with a single jammy identifier. -/
def sample_entry (s : String) : YVal :=
  YVal.dict [("ubuntu", YVal.dict [("jammy", YVal.list [YVal.str s])])]

/-- A one-entry document. -/
def sample_doc : Doc := [("pkg_a", sample_entry "ros-humble-pkg-a")]

/-- A discovered package whose name collides with the sample_doc key. -/
def sample_pkg_a : ROSPackage := ⟨"pkg_a", "repo1", "src/package.xml"⟩

/-- A discovered package with a fresh name. -/
def sample_pkg_b : ROSPackage := ⟨"pkg_b", "repo1", "src/b/package.xml"⟩

/-- The serialized form of sample_doc, as the append-only writer leaves it
on disk (ends in a newline). -/
def c3_old : String := "pkg_a:\n  ubuntu:\n    jammy:\n    - ros-humble-pkg-a\n"

/-- Document after adding pkg_b to the sample document. -/
def c3_doc : Doc :=
  [("pkg_a", sample_entry "ros-humble-pkg-a"), ("pkg_b", sample_entry "ros-humble-pkg-b")]

/-- The pkg_b entry alone (the only new entry relative to baseline pkg_a). -/
def c3_new : Doc := [("pkg_b", sample_entry "ros-humble-pkg-b")]

/-- A structurally well-typed document whose identifier lacks the ros-
prefix. -/
def c6_doc : Doc :=
  [("mypkg", YVal.dict [("ubuntu", YVal.dict [("jammy", YVal.list [YVal.str "libfoo-dev"])])])]

/-- A document whose jammy value is a string instead of a list. -/
def c5_doc : Doc :=
  [("pkg_c", YVal.dict [("ubuntu", YVal.dict [("jammy", YVal.str "ros-humble-pkg-c")])])]

/-- A manually excluded package name and a record carrying it. -/
def c7_pkg : ROSPackage := ⟨"secret_pkg", "repo9", "p/package.xml"⟩

/-- Duplicate records named foo from repositories alpha and zeta. -/
def pkg_foo_alpha : ROSPackage := ⟨"foo", "alpha", "alpha/package.xml"⟩

/-- See pkg_foo_alpha. -/
def pkg_foo_zeta : ROSPackage := ⟨"foo", "zeta", "zeta/package.xml"⟩

/-- A 403 response with exhausted quota, as GitHub sends it. -/
def rl_response : HttpResponse :=
  ⟨403, some "0", some "1700000000", some "API rate limit exceeded", ""⟩

/-! ## Helper lemmas -/

theorem contains_iff_mem (l : List String) (n : String) :
    l.contains n = true ↔ n ∈ l := by
  induction l with
  | nil => simp
  | cons a as ih => simp [List.contains_cons, ih, eq_comm (a := n)]

theorem add_ros_package_existing (d : Doc) (p : ROSPackage) (f : Bool)
    (h : hasKey d p.name = true) : add_ros_package d p f = (false, d) := by
  simp [add_ros_package, h]

theorem keys_add (d : Doc) (p : ROSPackage) (f : Bool) :
    keys (add_ros_package d p f).2
      = if hasKey d p.name then keys d else keys d ++ [p.name] := by
  by_cases h : hasKey d p.name <;> simp [add_ros_package, h, keys]

theorem mem_keys_add (d : Doc) (p : ROSPackage) (f : Bool) (n : String)
    (h : n ∈ keys d) : n ∈ keys (add_ros_package d p f).2 := by
  rw [keys_add]
  split <;> simp [h]

theorem self_mem_keys_add (d : Doc) (p : ROSPackage) (f : Bool) :
    p.name ∈ keys (add_ros_package d p f).2 := by
  rw [keys_add]
  split
  · exact (hasKey_iff_mem d p.name).1 (by assumption)
  · simp

theorem mem_keys_add_multiple (f : Bool) (l : List ROSPackage) (d : Doc) (n : String)
    (h : n ∈ keys d) : n ∈ keys (add_multiple_packages f d l).1 := by
  induction l generalizing d with
  | nil => simpa [add_multiple_packages] using h
  | cons p rest ih =>
    simp only [add_multiple_packages]
    exact ih _ (mem_keys_add d p f n h)

theorem names_mem_keys_add_multiple (f : Bool) (l : List ROSPackage) (d : Doc) :
    ∀ p ∈ l, p.name ∈ keys (add_multiple_packages f d l).1 := by
  induction l generalizing d with
  | nil => simp
  | cons p rest ih =>
    intro p' hp'
    simp only [add_multiple_packages]
    rcases List.mem_cons.mp hp' with h | h
    · subst h
      exact mem_keys_add_multiple f rest _ _ (self_mem_keys_add d p' f)
    · exact ih _ p' h

theorem add_multiple_nop (f : Bool) (l : List ROSPackage) (d : Doc)
    (h : ∀ p ∈ l, hasKey d p.name = true) :
    add_multiple_packages f d l = (d, 0) := by
  induction l with
  | nil => rfl
  | cons p rest ih =>
    simp [add_multiple_packages,
      add_ros_package_existing d p f (h p (List.mem_cons_self p rest)),
      ih (fun q hq => h q (List.mem_cons_of_mem p hq))]

theorem keys_add_multiple_sub (f : Bool) (l : List ROSPackage) (d : Doc) (n : String)
    (h : n ∈ keys (add_multiple_packages f d l).1) :
    n ∈ keys d ∨ ∃ p ∈ l, p.name = n := by
  induction l generalizing d with
  | nil => left; simpa [add_multiple_packages] using h
  | cons p rest ih =>
    simp only [add_multiple_packages] at h
    rcases ih _ h with h2 | ⟨q, hq, hqn⟩
    · rw [keys_add] at h2
      split at h2
      · left; exact h2
      · rcases List.mem_append.mp h2 with h3 | h3
        · left; exact h3
        · right
          exact ⟨p, List.mem_cons_self p rest, (List.mem_singleton.mp h3).symm⟩
    · right; exact ⟨q, List.mem_cons_of_mem p hq, hqn⟩

theorem empty_str_append (s : String) : "" ++ s = s := by
  cases s
  rfl

theorem str_append_assoc (a b c : String) : (a ++ b) ++ c = a ++ (b ++ c) := by
  cases a with
  | mk la =>
    cases b with
    | mk lb =>
      cases c with
      | mk lc =>
        show String.mk ((la ++ lb) ++ lc) = String.mk (la ++ (lb ++ lc))
        exact congrArg String.mk (List.append_assoc la lb lc)

theorem validate_entry_false_of_nonlist (kvs distros : List (String × YVal))
    (dn : String) (v : YVal)
    (hub : alookup kvs "ubuntu" = some (YVal.dict distros))
    (hd : (dn, v) ∈ distros) (hv : v.isList = false) :
    validate_entry (YVal.dict kvs) = false := by
  simp only [validate_entry, hub, valid_ubuntu_data]
  rw [Bool.eq_false_iff]
  intro hall
  have hone := (List.all_eq_true.mp hall) (dn, v) hd
  cases v with
  | list xs => simp [YVal.isList] at hv
  | str s => simp at hone
  | int m => simp at hone
  | dict kvs2 => simp at hone

theorem validate_structure_false_of_entry (doc : Doc) (n : String)
    (e : YVal) (hmem : (n, e) ∈ doc) (hentry : validate_entry e = false) :
    validate_yaml_structure doc = false := by
  rw [Bool.eq_false_iff]
  intro hall
  have := (List.all_eq_true.mp hall) (n, e) hmem
  simp [hentry] at this

/-! ## Claim theorems -/

/-- C2: whenever a package record's name is already a key of the loaded
document, add_ros_package leaves the document unchanged and returns false,
for force-mode true and false alike — force-mode never overwrites an
existing entry. -/
theorem add_existing_package_refused (d : Doc) (p : ROSPackage) (force_update : Bool)
    (h : p.name ∈ keys d) :
    add_ros_package d p force_update = (false, d) :=
  add_ros_package_existing d p force_update ((hasKey_iff_mem d p.name).2 h)

/-- Witness for C2 at a concrete collision, with both force-mode values. -/
theorem add_existing_package_refused_check :
    ("pkg_a" : String) ∈ keys sample_doc
    ∧ add_ros_package sample_doc sample_pkg_a true = (false, sample_doc)
    ∧ add_ros_package sample_doc sample_pkg_a false = (false, sample_doc) :=
  ⟨by decide,
   add_existing_package_refused sample_doc sample_pkg_a true (by decide),
   add_existing_package_refused sample_doc sample_pkg_a false (by decide)⟩

/-- C4: running the reconciliation a second time, against the document the
first run produced and with the same discovered packages, the same manual
exclusions and the same force-mode, adds zero packages and leaves the
document exactly as the first run left it. -/
theorem update_packages_idempotent (d : Doc) (pkgs : List ROSPackage)
    (manual : List String) (force_update : Bool) :
    update_packages (update_packages d pkgs manual force_update).1 pkgs manual force_update
      = ((update_packages d pkgs manual force_update).1, 0) := by
  have key : ∀ p ∈ packages_to_add (update_packages d pkgs manual force_update).1
      pkgs manual force_update,
      hasKey (update_packages d pkgs manual force_update).1 p.name = true := by
    intro p hp
    rw [hasKey_iff_mem]
    unfold packages_to_add at hp
    rcases List.mem_filter.mp hp with ⟨hbase, hman⟩
    cases force_update with
    | true =>
      have hpk : p ∈ pkgs := by simpa using hbase
      have hpta : p ∈ packages_to_add d pkgs manual true :=
        List.mem_filter.mpr ⟨by simpa using hpk, hman⟩
      exact names_mem_keys_add_multiple true _ d p hpta
    | false =>
      have hbase' : p ∈ filter_new_packages
          (update_packages d pkgs manual false).1 pkgs := by simpa using hbase
      rcases List.mem_filter.mp hbase' with ⟨hpk, hnew⟩
      have hnot1 : hasKey (update_packages d pkgs manual false).1 p.name = false := by
        simpa using hnew
      have hnotd : hasKey d p.name = false := by
        by_contra hcon
        have hd : p.name ∈ keys d :=
          (hasKey_iff_mem d p.name).1 (by simpa using hcon)
        have : p.name ∈ keys (update_packages d pkgs manual false).1 :=
          mem_keys_add_multiple false _ d p.name hd
        rw [← hasKey_iff_mem] at this
        simp [hnot1] at this
      have hpta : p ∈ packages_to_add d pkgs manual false := by
        refine List.mem_filter.mpr ⟨?_, hman⟩
        simpa [filter_new_packages, List.mem_filter, hpk] using hnotd
      have : p.name ∈ keys (update_packages d pkgs manual false).1 :=
        names_mem_keys_add_multiple false _ d p hpta
      rw [← hasKey_iff_mem] at this
      simp [hnot1] at this
  exact add_multiple_nop force_update _ _ key

/-- C7: a record whose name is in the manual-exclusion set — parsed from
the environment override and the sidecar file — is filtered out before the
merge and is never added to the document, whatever force-mode is. -/
theorem manual_exclusion_never_added (env_value : String)
    (fileLines : Option (List String)) (d : Doc) (pkgs : List ROSPackage)
    (force_update : Bool) (n : String)
    (hn : n ∈ get_manual_packages env_value fileLines) :
    (∀ p ∈ packages_to_add d pkgs (get_manual_packages env_value fileLines) force_update,
        p.name ≠ n)
    ∧ ((n ∈ keys (update_packages d pkgs
          (get_manual_packages env_value fileLines) force_update).1) ↔ n ∈ keys d) := by
  have hfilter : ∀ p ∈ packages_to_add d pkgs
      (get_manual_packages env_value fileLines) force_update, p.name ≠ n := by
    intro p hp hpn
    rcases List.mem_filter.mp hp with ⟨_, hman⟩
    have : (get_manual_packages env_value fileLines).contains p.name = false := by
      simpa using hman
    rw [hpn] at this
    have := (contains_iff_mem _ n).2 hn
    simp_all
  refine ⟨hfilter, ?_, fun h => mem_keys_add_multiple _ _ _ _ h⟩
  intro hmem
  rcases keys_add_multiple_sub force_update _ d n hmem with h | ⟨p, hp, hpn⟩
  · exact h
  · exact absurd hpn (hfilter p hp)

/-- Witness for C7: a concrete excluded name stays out of the document. -/
theorem manual_exclusion_never_added_check :
    ("secret_pkg" : String) ∈ get_manual_packages "secret_pkg, other"
        (some ["# hand maintained", "", "  extra_pkg  "])
    ∧ ((∀ p ∈ packages_to_add sample_doc [c7_pkg]
          (get_manual_packages "secret_pkg, other"
            (some ["# hand maintained", "", "  extra_pkg  "])) true, p.name ≠ "secret_pkg")
       ∧ (("secret_pkg" : String) ∈ keys (update_packages sample_doc [c7_pkg]
            (get_manual_packages "secret_pkg, other"
              (some ["# hand maintained", "", "  extra_pkg  "])) true).1
          ↔ ("secret_pkg" : String) ∈ keys sample_doc)) :=
  ⟨by decide,
   manual_exclusion_never_added "secret_pkg, other"
     (some ["# hand maintained", "", "  extra_pkg  "]) sample_doc [c7_pkg] true
     "secret_pkg" (by decide)⟩

/-- C5: a document with an entry whose platform mapping binds a distro
codename to a string (or any non-list) fails structural validation, the
default (full-rewrite) save fails leaving the file untouched, and the
append-only save likewise fails without writing whenever the defective
entry is among the entries being appended (i.e. its key is outside the
baseline — append-only validation covers exactly the new entries). -/
theorem nonlist_distro_fails_validation_and_save
    (doc : Doc) (n : String) (kvs distros : List (String × YVal)) (dn : String)
    (v : YVal) (fc : Option String) (orig : List String)
    (hmem : (n, YVal.dict kvs) ∈ doc)
    (hub : alookup kvs "ubuntu" = some (YVal.dict distros))
    (hd : (dn, v) ∈ distros)
    (hv : v.isList = false) :
    validate_yaml_structure doc = false
    ∧ save_rosdep_file doc fc false none = (false, fc)
    ∧ (orig.contains n = false →
        save_rosdep_file doc fc true (some orig) = (false, fc)) := by
  have hentry := validate_entry_false_of_nonlist kvs distros dn v hub hd hv
  have hval := validate_structure_false_of_entry doc n (YVal.dict kvs) hmem hentry
  refine ⟨hval, ?_, ?_⟩
  · simp [save_rosdep_file, hval]
  · intro hni
    have hmemf : (n, YVal.dict kvs) ∈ doc.filter (fun kv => !(orig.contains kv.1)) :=
      List.mem_filter.mpr ⟨hmem, by
        show (!(orig.contains n)) = true
        rw [hni]
        rfl⟩
    have hvalf : validate_yaml_structure
        (doc.filter (fun kv => !(orig.contains kv.1))) = false :=
      validate_structure_false_of_entry _ n (YVal.dict kvs) hmemf hentry
    have hnil : (doc.filter (fun kv => !(orig.contains kv.1))).isEmpty = false := by
      rw [Bool.eq_false_iff]
      intro hemp
      rw [List.isEmpty_iff] at hemp
      exact absurd (hemp ▸ hmemf) (List.not_mem_nil _)
    simp only [save_rosdep_file, hnil, hvalf]
    simp

/-- Witness for C5 at a concrete document whose jammy value is a string. -/
theorem nonlist_distro_fails_validation_and_save_check :
    validate_yaml_structure c5_doc = false
    ∧ save_rosdep_file c5_doc none false none = (false, none)
    ∧ (List.contains [] "pkg_c" = false →
        save_rosdep_file c5_doc none true (some []) = (false, none)) :=
  nonlist_distro_fails_validation_and_save c5_doc "pkg_c"
    [("ubuntu", YVal.dict [("jammy", YVal.str "ros-humble-pkg-c")])]
    [("jammy", YVal.str "ros-humble-pkg-c")] "jammy"
    (YVal.str "ros-humble-pkg-c") none []
    (by simp [c5_doc]) rfl (by simp) rfl

/-- C3 counterexample: with an existing file that already ends in a
newline, the append-only save still writes a newline separator before the
appended entries, so the resulting content is NOT the prior content
directly followed by the serialized new entries — a separator appears even
though the file ends in a newline, contradicting the claim that one
precedes the appended content exactly when the file does not end in a
newline. -/
theorem append_separator_claim_false :
    endsWithNewline c3_old = true
    ∧ save_rosdep_file c3_doc (some c3_old) true (some ["pkg_a"])
        = (true, some (c3_old ++ "\n" ++ yamlDump (sortKvs c3_new)))
    ∧ c3_old ++ "\n" ++ yamlDump (sortKvs c3_new)
        ≠ c3_old ++ yamlDump (sortKvs c3_new) := by
  refine ⟨rfl, rfl, ?_⟩
  decide

/-- C3 (amended): a successful append-only save over a nonempty
pre-existing file keeps the prior content byte-identically as a prefix and
serializes exactly the entries whose keys are outside the before-baseline;
the appended block is always preceded by one separator newline, plus an
additional newline first when the prior content does not already end in
one (so a separator precedes the appended content even when the file ends
in a newline, not exactly when it does not). -/
theorem append_only_save_appends_after_separator
    (d : Doc) (old : String) (orig : List String)
    (hold : old.data.isEmpty = false)
    (hne : (d.filter (fun kv => !(orig.contains kv.1))).isEmpty = false)
    (hval : validate_yaml_structure (d.filter (fun kv => !(orig.contains kv.1))) = true) :
    save_rosdep_file d (some old) true (some orig)
      = (true, some (old ++ (if endsWithNewline old then "" else "\n") ++ "\n"
          ++ yamlDump (sortKvs (d.filter (fun kv => !(orig.contains kv.1))))))
    ∧ ∀ kv ∈ d.filter (fun kv => !(orig.contains kv.1)), orig.contains kv.1 = false := by
  constructor
  · have hold' : old.data ≠ [] := by simpa using hold
    simp only [save_rosdep_file, hne, hval, hold]
    by_cases hend : endsWithNewline old = true
    · simp [hend, hold']
    · have hend' : endsWithNewline old = false := Bool.eq_false_iff.mpr hend
      simp [hend', hold']
  · intro kv hkv
    simpa using (List.mem_filter.mp hkv).2

/-- Witness for C3 (amended) at a concrete nonempty file and one new
entry. -/
theorem append_only_save_appends_after_separator_check :
    c3_old.data.isEmpty = false
    ∧ (save_rosdep_file c3_doc (some c3_old) true (some ["pkg_a"])
        = (true, some (c3_old ++ (if endsWithNewline c3_old then "" else "\n") ++ "\n"
            ++ yamlDump (sortKvs (c3_doc.filter
                (fun kv => !(List.contains ["pkg_a"] kv.1))))))
       ∧ ∀ kv ∈ c3_doc.filter (fun kv => !(List.contains ["pkg_a"] kv.1)),
           List.contains ["pkg_a"] kv.1 = false) :=
  ⟨rfl, append_only_save_appends_after_separator c3_doc c3_old ["pkg_a"]
    rfl rfl rfl⟩

/-- C6 counterexample: a well-typed document whose identifier lacks the
ros- prefix passes the structural validation that gates persistence, and
both save modes succeed — the save is not blocked. -/
theorem nonprefixed_identifier_passes_gate :
    pyStartsWith "libfoo-dev" "ros-" = false
    ∧ validate_yaml_structure c6_doc = true
    ∧ (save_rosdep_file c6_doc none false none).1 = true
    ∧ (save_rosdep_file c6_doc none true (some [])).1 = true :=
  ⟨rfl, rfl, rfl, rfl⟩

/-- C6 (amended): the validation that gates persistence checks only shapes
and never the ros- prefix: a structurally valid document containing a
non-prefixed identifier saves successfully; the prefix requirement lives
only in the advisory validate_existing_entries routine, which reports the
identifier but is not invoked by any save path. -/
theorem prefix_checked_only_by_advisory_validation
    (doc : Doc) (fc : Option String) (n s dn : String)
    (kvs distros : List (String × YVal)) (pkgs : List YVal)
    (hval : validate_yaml_structure doc = true)
    (hmem : (n, YVal.dict kvs) ∈ doc)
    (hub : alookup kvs "ubuntu" = some (YVal.dict distros))
    (hd : (dn, YVal.list pkgs) ∈ distros)
    (hs : YVal.str s ∈ pkgs)
    (hpre : pyStartsWith s "ros-" = false) :
    save_rosdep_file doc fc false none = (true, some (yamlDump (sortKvs doc)))
    ∧ ("Package " ++ n ++ " has non-ROS package: " ++ s)
        ∈ validate_existing_entries doc := by
  constructor
  · simp [save_rosdep_file, hval]
  · unfold validate_existing_entries
    refine List.mem_flatMap.mpr ⟨(n, YVal.dict kvs), hmem, ?_⟩
    simp only [entry_issues, hub]
    refine List.mem_flatMap.mpr ⟨(dn, YVal.list pkgs), hd, ?_⟩
    simp only [distro_issues]
    refine List.mem_append.mpr (Or.inr ?_)
    refine List.mem_flatMap.mpr ⟨YVal.str s, hs, ?_⟩
    simp [pkg_issue, hpre]

/-- Witness for C6 (amended) at the concrete non-prefixed document. -/
theorem prefix_checked_only_by_advisory_validation_check :
    validate_yaml_structure c6_doc = true
    ∧ (save_rosdep_file c6_doc none false none = (true, some (yamlDump (sortKvs c6_doc)))
       ∧ ("Package " ++ "mypkg" ++ " has non-ROS package: " ++ "libfoo-dev")
           ∈ validate_existing_entries c6_doc) :=
  ⟨rfl, prefix_checked_only_by_advisory_validation c6_doc none "mypkg" "libfoo-dev"
    "jammy" [("ubuntu", YVal.dict [("jammy", YVal.list [YVal.str "libfoo-dev"])])]
    [("jammy", YVal.list [YVal.str "libfoo-dev"])] [YVal.str "libfoo-dev"]
    rfl (by simp [c6_doc]) rfl (by simp) (by simp) rfl⟩

/-- C9: when exactly two discovered records share a package name,
deduplication keeps the one whose originating repository name compares
lexicographically greater (Python string order), whichever of the two
comes first. -/
theorem dedup_keeps_lexicographically_greater_repo (p q : ROSPackage)
    (hname : p.name = q.name) (hrep : p.repository ≠ q.repository) :
    get_unique_packages [p, q]
      = [if pyStrLt p.repository q.repository then q else p] := by
  by_cases h : pyStrLt p.repository q.repository = true
  · simp [get_unique_packages, unique_loop, alookup, updateKeyed, hname, h]
  · have h' : pyStrLt p.repository q.repository = false := Bool.eq_false_iff.mpr h
    simp [get_unique_packages, unique_loop, alookup, updateKeyed, hname, h']

/-- Witness for C9: records named foo from repositories alpha and zeta, in
both input orders, retain the zeta record. -/
theorem dedup_keeps_lexicographically_greater_repo_check :
    pkg_foo_alpha.name = pkg_foo_zeta.name
    ∧ get_unique_packages [pkg_foo_alpha, pkg_foo_zeta] = [pkg_foo_zeta]
    ∧ get_unique_packages [pkg_foo_zeta, pkg_foo_alpha] = [pkg_foo_zeta] := by
  refine ⟨rfl, ?_, ?_⟩
  · have h := dedup_keeps_lexicographically_greater_repo pkg_foo_alpha pkg_foo_zeta
      rfl (by decide)
    rw [h]
    decide
  · have h := dedup_keeps_lexicographically_greater_repo pkg_foo_zeta pkg_foo_alpha
      rfl (by decide)
    rw [h]
    decide

/-- C1 (at the failing input): a 403 response with zero remaining quota is
detected and raised as the distinct typed rate-limit failure with its
reset timestamp — but when it occurs inside the per-repository analysis of
the all-repositories scan, the loop's generic per-item exception handler
swallows it and the scan returns normally (here: Except.ok with no
packages) instead of propagating the failure to the top level. -/
theorem rate_limit_error_swallowed_in_repo_loop :
    is_rate_limited rl_response = true
    ∧ github_request "https://api.github.com/orgs/haru-project/repos" rl_response
        = Except.error (PyErr.rateLimit
            "Rate limit hit for https://api.github.com/orgs/haru-project/repos: API rate limit exceeded"
            (some 1700000000))
    ∧ analyze_all_repositories
        [Except.error (PyErr.rateLimit
            "Rate limit hit for https://api.github.com/orgs/haru-project/repos: API rate limit exceeded"
            (some 1700000000))]
        = Except.ok [] :=
  ⟨rfl, rfl, rfl⟩

/-- C8 (at the failing input): inside get_file_content only transport
failures are converted to an absent result; a content payload that decodes
from base64 to invalid UTF-8 raises UnicodeDecodeError out of the function
(the slash-w payload decodes to the single byte 0xFF), and a payload with
bad base64 padding raises binascii.Error, while a transport failure and a
well-formed payload return None and the decoded text respectively. -/
theorem decode_failure_raises_in_get_file_content :
    get_file_content (ContentResponse.okJson "file" "/w==")
        = Except.error PyErr.unicodeDecodeError
    ∧ get_file_content (ContentResponse.okJson "file" "AAA")
        = Except.error PyErr.binasciiError
    ∧ get_file_content ContentResponse.requestError = Except.ok none
    ∧ get_file_content (ContentResponse.okJson "file" "aGVsbG8=")
        = Except.ok (some "hello") :=
  ⟨rfl, rfl, rfl, rfl⟩

/-- C10: whenever main reaches the repository-scanning step (a token is
present), the call to analyze_organization_repositories passes the keyword
argument existing_packages, which the function signature does not accept,
so the call cannot bind, the TypeError lands in the generic top-level
handler, and the process exits 1 — with or without a specific repository
configured; the flow never completes successfully as wired. -/
theorem main_scan_call_kwarg_mismatch_exits_nonzero :
    ∀ specificRepo : Bool,
      kwargs_bind_ok analyzeOrgReposParams (mainScanKwargs specificRepo) = false
      ∧ mainRun true specificRepo = RunOutcome.exit 1 := by
  decide

end Rosdistro
